/-
Verification of the SQL practice tool (src/app.py) against its specification.

The repository's core logic lives in four functions of `app.py`:
`execute_user_query`, `get_expected_result`, `compare_query_results`, and the
`/execute_query` route handler `execute_query`.  The sqlite engine and the
bundled dataset script (`all_codes.sql`, not part of `src/`) are external
collaborators; they are modelled by an abstract `engine` parameter mapping a
query string to either an error (a raised `sqlite3`/Python exception, whose
text is abstracted) or an engine-level result (cursor description, fetched raw
rows, and `cursor.rowcount`).

Strings handled by the Python code are modelled as `List Char` where the code
manipulates them (strip/upper/substring), so that their algebra is provable;
SQL cell values are modelled by `SqlValue` (NULL, INTEGER, TEXT; REAL and BLOB
values of sqlite are omitted, no claim depends on them).  Python's partial
comparison (`<` raising `TypeError` on cross-type operands) is modelled by
`Option Bool`-valued comparators, and `sorted` by an insertion sort in the
`Option` monad which fails exactly when it needs an undefined comparison; the
text of the caught exception is abstracted by a fixed message since it is
produced by the interpreter, not by this code.
-/
import Mathlib

/-- Whitespace as recognized by Python's `str.strip()` (ASCII fragment). -/
def isWS (c : Char) : Bool :=
  c = ' ' || c = '\t' || c = '\n' || c = '\r' || c = '\x0b' || c = '\x0c'

/-- Python `str.strip()`: drop leading and trailing whitespace. -/
def pyStrip (l : List Char) : List Char :=
  (l.dropWhile isWS).rdropWhile isWS

/-- Python `str.upper()` (ASCII fragment, enough for the SQL keywords). -/
def toUpperL (l : List Char) : List Char := l.map Char.toUpper

/-- Boolean prefix test on character lists. -/
def isPrefixB : List Char → List Char → Bool
  | [], _ => true
  | _ :: _, [] => false
  | a :: as, b :: bs => a == b && isPrefixB as bs

/-- Python's `needle in hay` substring test. -/
def containsSubL (needle : List Char) : List Char → Bool
  | [] => isPrefixB needle []
  | c :: rest => isPrefixB needle (c :: rest) || containsSubL needle rest

/-- Python `<` on two strings: lexicographic by code point, scanning past
equal characters, a strict prefix being smaller. -/
def strLtB : List Char → List Char → Bool
  | [], [] => false
  | [], _ :: _ => true
  | _ :: _, [] => false
  | a :: as, b :: bs => if a = b then strLtB as bs else decide (a < b)

/-- One SQL cell value as surfaced to Python by `sqlite3` (REAL/BLOB omitted). -/
inductive SqlValue
  | vnull
  | vint (n : Int)
  | vstr (s : String)
deriving DecidableEq, Repr

/-- One result row: the insertion-ordered field/value pairs of `dict(row)`. -/
abbrev SqlRow := List (String × SqlValue)

/-- Python `<` on two cell values: defined within INTEGER and within TEXT,
a `TypeError` (modelled as `none`) across types and on NULL. -/
def SqlValue.ltPy : SqlValue → SqlValue → Option Bool
  | .vint a, .vint b => some (decide (a < b))
  | .vstr a, .vstr b => some (strLtB a.data b.data)
  | _, _ => none

/-- Python `<` on two `(field, value)` pairs, i.e. 2-tuple comparison:
first differing component decides; value comparison may raise. -/
def pairLtPy (p q : String × SqlValue) : Option Bool :=
  if p.1 = q.1 then
    if p.2 = q.2 then some false else SqlValue.ltPy p.2 q.2
  else some (strLtB p.1.data q.1.data)

/-- Python `<` on two canonicalized rows (tuples of pairs): lexicographic,
scanning past equal components, a strict prefix being smaller. -/
def rowLtPy : SqlRow → SqlRow → Option Bool
  | [], [] => some false
  | [], _ :: _ => some true
  | _ :: _, [] => some false
  | p :: ps, q :: qs => if p = q then rowLtPy ps qs else pairLtPy p q

/-- Insert into a sorted list, failing when an undefined comparison is hit. -/
def pyInsert (lt : α → α → Option Bool) (x : α) : List α → Option (List α)
  | [] => some [x]
  | y :: ys =>
    match lt x y with
    | none => none
    | some true => some (x :: y :: ys)
    | some false => (pyInsert lt x ys).map (y :: ·)

/-- Python `sorted(·)`, as an insertion sort in the `Option` monad: on lists
whose relevant comparisons are all defined it agrees with any comparison sort
(equal elements are structurally equal here, so stability is irrelevant);
`none` models the sort raising `TypeError`. -/
def pySort (lt : α → α → Option Bool) : List α → Option (List α)
  | [] => some []
  | x :: xs => (pySort lt xs).bind (pyInsert lt x)

/-- A failure-propagating map, modelling a Python list comprehension over an
operation that may raise. -/
def mapO (f : α → Option β) : List α → Option (List β)
  | [] => some []
  | x :: xs => (f x).bind (fun y => (mapO f xs).map (y :: ·))

/-- `sorted([tuple(sorted(row.items())) for row in data])` from
`compare_query_results`: canonicalize each row by sorting its field/value
pairs, then sort the collection of canonical rows. -/
def canonData (data : List SqlRow) : Option (List SqlRow) :=
  (mapO (pySort pairLtPy) data).bind (pySort rowLtPy)

/-- `dict(row)` on a `sqlite3.Row`: one entry per distinct column name, in
first-occurrence order, holding the value of the first column of that name
(`Row.__getitem__` by name resolves to the first matching column). -/
def pyDictRow : List (String × SqlValue) → List String → SqlRow
  | [], _ => []
  | p :: rest, seen =>
    if p.1 ∈ seen then pyDictRow rest seen
    else p :: pyDictRow rest (p.1 :: seen)

/-- The result dictionary returned by `execute_user_query` (and consumed by
`compare_query_results`).  The `columns`/`data` keys are present together
exactly for the SELECT branch; they are bundled as `tab`. -/
structure QueryResult where
  success : Bool
  tab : Option (List String × List SqlRow)
  row_count : Option Int
  message : Option String
  error : Option String
deriving DecidableEq, Repr

/-- The comparison verdict `{match, message}` (field `match` of the Python
dict is spelled `matched`, `match` being reserved in Lean). -/
structure CompVerdict where
  matched : Bool
  message : String
deriving DecidableEq, Repr

/-- What the embedded sqlite engine hands back for one successfully executed
statement: `cursor.description` names, the fetched raw rows (one value per
described column, as produced by the engine), and `cursor.rowcount`. -/
structure EngineResult where
  description : List String
  raw : List (List SqlValue)
  rowcount : Int
deriving DecidableEq, Repr

/-- The engine boundary: executing a statement either raises (with some
exception text) or yields an `EngineResult`. -/
inductive EngineOutcome
  | ok (r : EngineResult)
  | err (msg : String)
deriving DecidableEq, Repr

/-- An abstract engine: the behaviour of `sqlite3` on the freshly reloaded
dataset, one outcome per query text. -/
abbrev Engine := List Char → EngineOutcome

/-- `query.strip().upper().startswith("SELECT")` from `execute_user_query`. -/
def startsWithSelect (query : List Char) : Bool :=
  isPrefixB "SELECT".data (toUpperL (pyStrip query))

/-- `execute_user_query` from app.py: run the statement; on the SELECT branch
return columns, `dict(row)` data and `row_count = len(results)`; otherwise
commit and return the affected-rows message; catch every engine exception and
return a tagged failure `SQL Error: <text>`. -/
def execute_user_query (engine : Engine) (query : List Char) : QueryResult :=
  match engine query with
  | .err e =>
      { success := false, tab := none, row_count := none, message := none,
        error := some ("SQL Error: " ++ e) }
  | .ok r =>
      if startsWithSelect query then
        { success := true,
          tab := some (r.description,
                       r.raw.map (fun vals => pyDictRow (r.description.zip vals) [])),
          row_count := some (Int.ofNat r.raw.length),
          message := none, error := none }
      else
        { success := true, tab := none, row_count := some r.rowcount,
          message := some ("Query executed successfully. Rows affected: "
                             ++ toString r.rowcount),
          error := none }

/-- The `expected_queries` table of `get_expected_result` (reference SQL
texts abbreviated to their identity as opaque query strings is NOT done:
these are the verbatim inner texts with the Python source's indentation
stripped to single spaces; only their identity as distinct strings and their
keys matter to any claim). -/
def expected_queries : List (String × String) :=
  [("1", "SELECT sub.* FROM ( SELECT t.*, ROW_NUMBER() OVER (PARTITION BY t.ProductID ORDER BY t.TransactionDate) AS rn FROM transactions t ) AS sub JOIN customers c ON sub.CustomerID = c.CustomerID JOIN products p ON sub.ProductID = p.ProductID WHERE rn = 3;"),
   ("2", "SELECT c.Region, SUM(t.TotalValue) as total_spending_region FROM transactions t LEFT JOIN customers c ON c.CustomerID = t.CustomerID GROUP BY c.Region HAVING SUM(t.TotalValue) > 300 ORDER BY total_spending_region DESC"),
   ("3", "SELECT p.ProductName FROM products p WHERE NOT EXISTS ( SELECT 1 FROM transactions t WHERE p.ProductID = t.ProductID )"),
   ("4", "SELECT DISTINCT ProductID FROM transactions WHERE Price > ( SELECT AVG(Price) FROM transactions )")]

/-- `get_expected_result` from app.py: look the question id up in the static
bank; run the reference SQL through the executor like any user query, or
report `Question not found`. -/
def get_expected_result (engine : Engine) (question_id : String) : QueryResult :=
  match expected_queries.lookup question_id with
  | some sql => execute_user_query engine sql.data
  | none =>
      { success := false, tab := none, row_count := none, message := none,
        error := some "Question not found" }

/-- Helper printing an optional row count the way Python prints
`result.get("row_count")` inside an f-string (`None` when absent). -/
def rcStr : Option Int → String
  | none => "None"
  | some n => toString n

/-- `compare_query_results` from app.py, line by line.  The text interpolating
a Python `set` repr (column mismatch) and the text of a caught comparison
exception are abstracted (both are interpreter-dependent; no claim constrains
them), every other message is verbatim. -/
def compare_query_results (u e : QueryResult) : CompVerdict :=
  if u.success = false then
    { matched := false,
      message := "User query failed: " ++ u.error.getD "Unknown error" }
  else if e.success = false then
    { matched := false,
      message := "Expected query failed: " ++ e.error.getD "Unknown error" }
  else
    match u.tab, e.tab with
    | some (ucols, udata), some (ecols, edata) =>
        if udata.length ≠ edata.length then
          { matched := false,
            message := "Row count mismatch: User has " ++ toString udata.length
                         ++ ", expected " ++ toString edata.length }
        else if ucols.toFinset ≠ ecols.toFinset then
          { matched := false,
            message := "Column mismatch: User has " ++ toString ucols
                         ++ ", expected " ++ toString ecols }
        else
          match canonData udata, canonData edata with
          | some us, some es =>
              if us ≠ es then
                { matched := false, message := "Data content does not match exactly" }
              else
                { matched := true, message := "Perfect match!" }
          | _, _ =>
              { matched := false, message := "Error comparing data: TypeError" }
    | _, _ =>
        if u.row_count = e.row_count then
          { matched := true, message := "Row counts match" }
        else
          { matched := false,
            message := "Row count mismatch: User affected " ++ rcStr u.row_count
                         ++ ", expected " ++ rcStr e.row_count }

/-- The parsed JSON body of a `POST /execute_query` request (`none` fields for
absent keys; non-string values for these keys are outside the model). -/
structure RequestBody where
  query : Option String
  question_id : Option String
deriving DecidableEq, Repr

/-- The JSON response of the route: either a bare `{success: false, error}`
object or `{user_result, comparison}`. -/
inductive RouteResponse
  | err (error : String)
  | ok (user_result : QueryResult) (comparison : Option CompVerdict)
deriving DecidableEq, Repr

/-- `destructive_keywords` from the route handler. -/
def destructive_keywords : List String :=
  ["DROP", "DELETE", "UPDATE", "INSERT", "ALTER", "CREATE", "TRUNCATE"]

/-- The `/execute_query` route handler `execute_query` from app.py, after JSON
parsing: `none` models a falsy `request.get_json()` (missing or null body).
Checks run in source order: no body, empty stripped query, destructive-keyword
substring filter on the uppercased query; then the query is executed and, when
a truthy `question_id` is present, the reference result is fetched and
compared. -/
def execute_query (engine : Engine) (data : Option RequestBody) : RouteResponse :=
  match data with
  | none => .err "No JSON data received"
  | some body =>
      let user_query := pyStrip (body.query.getD "").data
      if user_query.isEmpty then .err "Query cannot be empty"
      else if destructive_keywords.any
          (fun kw => containsSubL kw.data (toUpperL user_query)) then
        .err "For security reasons, only SELECT queries are allowed in this demo"
      else
        let user_result := execute_user_query engine user_query
        let comparison :=
          match body.question_id with
          | none => none
          | some qid =>
              if qid = "" then none
              else some (compare_query_results user_result
                           (get_expected_result engine qid))
        .ok user_result comparison

theorem string_data_inj {s t : String} (h : s.data = t.data) : s = t := by
  cases s; cases t; exact congrArg String.mk h

theorem strLtB_irrefl (a : List Char) : strLtB a a = false := by
  induction a with
  | nil => rfl
  | cons c t ih => simpa [strLtB] using ih

theorem strLtB_asym {a b : List Char} (h : strLtB a b = true) : strLtB b a = false := by
  induction a generalizing b with
  | nil =>
    cases b with
    | nil => simp [strLtB] at h
    | cons d u => rfl
  | cons c t ih =>
    cases b with
    | nil => simp [strLtB] at h
    | cons d u =>
      by_cases hcd : c = d
      · subst hcd
        simp only [strLtB, if_pos rfl] at h ⊢
        exact ih h
      · have hdc : ¬ d = c := fun e => hcd e.symm
        simp only [strLtB, if_neg hcd, if_neg hdc, decide_eq_true_eq] at h
        simp only [strLtB, if_neg hdc, decide_eq_false_iff_not]
        exact lt_asymm h

theorem strLtB_total {a b : List Char} (h1 : strLtB a b = false)
    (h2 : strLtB b a = false) : a = b := by
  induction a generalizing b with
  | nil =>
    cases b with
    | nil => rfl
    | cons d u => simp [strLtB] at h1
  | cons c t ih =>
    cases b with
    | nil => simp [strLtB] at h2
    | cons d u =>
      by_cases hcd : c = d
      · subst hcd
        simp only [strLtB, if_pos rfl] at h1 h2
        rw [ih h1 h2]
      · have hdc : ¬ d = c := fun e => hcd e.symm
        simp only [strLtB, if_neg hcd, if_neg hdc, decide_eq_false_iff_not] at h1 h2
        exact absurd (le_antisymm (not_lt.mp h2) (not_lt.mp h1)) hcd

theorem strLtB_trans {a b c : List Char} (h1 : strLtB a b = true)
    (h2 : strLtB b c = true) : strLtB a c = true := by
  induction a generalizing b c with
  | nil =>
    cases b with
    | nil => simp [strLtB] at h1
    | cons d u =>
      cases c with
      | nil => simp [strLtB] at h2
      | cons e v => rfl
  | cons x t ih =>
    cases b with
    | nil => simp [strLtB] at h1
    | cons y u =>
      cases c with
      | nil => simp [strLtB] at h2
      | cons z v =>
        by_cases hxy : x = y
        · subst hxy
          simp only [strLtB, if_pos rfl] at h1
          by_cases hyz : x = z
          · subst hyz
            simp only [strLtB, if_pos rfl] at h2 ⊢
            exact ih h1 h2
          · simpa only [strLtB, if_neg hyz] using h2
        · simp only [strLtB, if_neg hxy, decide_eq_true_eq] at h1
          by_cases hyz : y = z
          · subst hyz
            simp only [strLtB, if_neg hxy, decide_eq_true_eq]
            exact h1
          · simp only [strLtB, if_neg hyz, decide_eq_true_eq] at h2
            have hlt : x < z := lt_trans h1 h2
            simp only [strLtB, if_neg (ne_of_lt hlt), decide_eq_true_eq]
            exact hlt

theorem vlt_asym {a b : SqlValue} (h : SqlValue.ltPy a b = some true) :
    SqlValue.ltPy b a = some false := by
  cases a <;> cases b <;>
    simp only [SqlValue.ltPy, Option.some.injEq, decide_eq_true_eq,
      decide_eq_false_iff_not, reduceCtorEq] at h ⊢
  · omega
  · exact strLtB_asym h

theorem vlt_D1 {a b : SqlValue} (h : SqlValue.ltPy a b = some false) :
    SqlValue.ltPy b a = some true ∨ a = b := by
  cases a with
  | vnull => simp [SqlValue.ltPy] at h
  | vint m =>
    cases b with
    | vnull => simp [SqlValue.ltPy] at h
    | vint n =>
      simp only [SqlValue.ltPy, Option.some.injEq, decide_eq_false_iff_not,
        decide_eq_true_eq, SqlValue.vint.injEq] at h ⊢
      omega
    | vstr s => simp [SqlValue.ltPy] at h
  | vstr s =>
    cases b with
    | vnull => simp [SqlValue.ltPy] at h
    | vint n => simp [SqlValue.ltPy] at h
    | vstr t =>
      simp only [SqlValue.ltPy, Option.some.injEq, SqlValue.vstr.injEq] at h ⊢
      cases hba : strLtB t.data s.data with
      | true => exact Or.inl rfl
      | false => exact Or.inr (string_data_inj (strLtB_total h hba))

theorem vlt_trans {a b c : SqlValue} (h1 : SqlValue.ltPy a b = some true)
    (h2 : SqlValue.ltPy b c = some true) : SqlValue.ltPy a c = some true := by
  cases a <;> cases b <;> cases c <;>
    simp only [SqlValue.ltPy, Option.some.injEq, decide_eq_true_eq,
      reduceCtorEq] at h1 h2 ⊢
  · omega
  · exact strLtB_trans h1 h2

theorem pair_asym {p q : String × SqlValue} (h : pairLtPy p q = some true) :
    pairLtPy q p = some false := by
  unfold pairLtPy at h ⊢
  by_cases hk : p.1 = q.1
  · rw [if_pos hk] at h
    rw [if_pos hk.symm]
    by_cases hv : p.2 = q.2
    · rw [if_pos hv] at h
      exact absurd (Option.some.inj h) (by simp)
    · rw [if_neg hv] at h
      rw [if_neg (fun e => hv e.symm)]
      exact vlt_asym h
  · rw [if_neg hk] at h
    rw [if_neg (fun e => hk e.symm)]
    have := Option.some.inj h
    simp only [Option.some.injEq]
    exact strLtB_asym this

theorem pair_D1 {p q : String × SqlValue} (h : pairLtPy p q = some false) :
    pairLtPy q p = some true ∨ p = q := by
  unfold pairLtPy at h ⊢
  by_cases hk : p.1 = q.1
  · rw [if_pos hk] at h
    by_cases hv : p.2 = q.2
    · exact Or.inr (Prod.ext hk hv)
    · rw [if_neg hv] at h
      rcases vlt_D1 h with hlt | heq
      · rw [if_pos hk.symm, if_neg (fun e => hv e.symm)]
        exact Or.inl hlt
      · exact absurd heq hv
  · rw [if_neg hk] at h
    have hf := Option.some.inj h
    cases hqp : strLtB q.1.data p.1.data with
    | true =>
      rw [if_neg (fun e => hk e.symm)]
      exact Or.inl rfl
    | false =>
      exact absurd (string_data_inj (strLtB_total hf hqp)) hk

theorem pair_trans {p q r : String × SqlValue} (h1 : pairLtPy p q = some true)
    (h2 : pairLtPy q r = some true) : pairLtPy p r = some true := by
  unfold pairLtPy at h1 h2 ⊢
  by_cases hpq : p.1 = q.1
  · rw [if_pos hpq] at h1
    by_cases hv : p.2 = q.2
    · rw [if_pos hv] at h1
      exact absurd (Option.some.inj h1) (by simp)
    · rw [if_neg hv] at h1
      by_cases hqr : q.1 = r.1
      · rw [if_pos hqr] at h2
        by_cases hv2 : q.2 = r.2
        · rw [if_pos hv2] at h2
          exact absurd (Option.some.inj h2) (by simp)
        · rw [if_neg hv2] at h2
          have hpr : p.1 = r.1 := hpq.trans hqr
          have hvlt := vlt_trans h1 h2
          have hvne : p.2 ≠ r.2 := by
            intro e
            rw [e] at h1
            have := vlt_asym h2
            rw [h1] at this
            exact absurd (Option.some.inj this) (by simp)
          rw [if_pos hpr, if_neg hvne]
          exact hvlt
      · rw [if_neg hqr] at h2
        have hpr : ¬ p.1 = r.1 := by rw [hpq]; exact hqr
        rw [← hpq] at h2
        rw [if_neg hpr]
        exact h2
  · rw [if_neg hpq] at h1
    have hs1 := Option.some.inj h1
    by_cases hqr : q.1 = r.1
    · have hpr : ¬ p.1 = r.1 := by rw [← hqr]; exact hpq
      rw [if_neg hpr]
      rw [← hqr]
      exact h1
    · rw [if_neg hqr] at h2
      have hs2 := Option.some.inj h2
      have hs3 := strLtB_trans hs1 hs2
      have hpr : ¬ p.1 = r.1 := by
        intro e
        rw [e] at hs1
        have := strLtB_asym hs2
        rw [hs1] at this
        exact Bool.noConfusion this
      rw [if_neg hpr, Option.some.injEq]
      exact hs3

theorem row_asym {a b : SqlRow} (h : rowLtPy a b = some true) :
    rowLtPy b a = some false := by
  induction a generalizing b with
  | nil =>
    cases b with
    | nil => simp [rowLtPy] at h
    | cons q qs => rfl
  | cons p ps ih =>
    cases b with
    | nil => simp [rowLtPy] at h
    | cons q qs =>
      by_cases hpq : p = q
      · subst hpq
        simp only [rowLtPy, if_pos rfl] at h ⊢
        exact ih h
      · have hqp : ¬ q = p := fun e => hpq e.symm
        simp only [rowLtPy, if_neg hpq] at h
        simp only [rowLtPy, if_neg hqp]
        exact pair_asym h

theorem row_D1 {a b : SqlRow} (h : rowLtPy a b = some false) :
    rowLtPy b a = some true ∨ a = b := by
  induction a generalizing b with
  | nil =>
    cases b with
    | nil => exact Or.inr rfl
    | cons q qs => simp [rowLtPy] at h
  | cons p ps ih =>
    cases b with
    | nil => exact Or.inl rfl
    | cons q qs =>
      by_cases hpq : p = q
      · subst hpq
        simp only [rowLtPy, if_pos rfl] at h ⊢
        rcases ih h with hl | he
        · exact Or.inl hl
        · exact Or.inr (by rw [he])
      · have hqp : ¬ q = p := fun e => hpq e.symm
        simp only [rowLtPy, if_neg hpq] at h
        rcases pair_D1 h with hl | he
        · simp only [rowLtPy, if_neg hqp]
          exact Or.inl hl
        · exact absurd he hpq

theorem row_trans {a b c : SqlRow} (h1 : rowLtPy a b = some true)
    (h2 : rowLtPy b c = some true) : rowLtPy a c = some true := by
  induction a generalizing b c with
  | nil =>
    cases b with
    | nil => simp [rowLtPy] at h1
    | cons q qs =>
      cases c with
      | nil => simp [rowLtPy] at h2
      | cons r rs => rfl
  | cons p ps ih =>
    cases b with
    | nil => simp [rowLtPy] at h1
    | cons q qs =>
      cases c with
      | nil => simp [rowLtPy] at h2
      | cons r rs =>
        by_cases hpq : p = q
        · subst hpq
          simp only [rowLtPy, if_pos rfl] at h1
          by_cases hqr : p = r
          · subst hqr
            simp only [rowLtPy, if_pos rfl] at h2 ⊢
            exact ih h1 h2
          · simp only [rowLtPy, if_neg hqr] at h2 ⊢
            exact h2
        · simp only [rowLtPy, if_neg hpq] at h1
          by_cases hqr : q = r
          · subst hqr
            simp only [rowLtPy, if_neg hpq]
            exact h1
          · simp only [rowLtPy, if_neg hqr] at h2
            have h3 := pair_trans h1 h2
            have hpr : ¬ p = r := by
              intro e
              subst e
              have hx := pair_asym h2
              rw [h1] at hx
              exact absurd (Option.some.inj hx) (by simp)
            simp only [rowLtPy, if_neg hpr]
            exact h3

section PySortTheory

variable {α : Type} (lt : α → α → Option Bool)

theorem pyInsert_perm {x : α} :
    ∀ {l m : List α}, pyInsert lt x l = some m → m.Perm (x :: l) := by
  intro l
  induction l with
  | nil =>
    intro m h
    cases Option.some.inj h
    exact List.Perm.refl _
  | cons y ys ih =>
    intro m h
    simp only [pyInsert] at h
    cases hlt : lt x y with
    | none => rw [hlt] at h; simp at h
    | some b =>
      rw [hlt] at h
      cases b with
      | true =>
        cases Option.some.inj h
        exact List.Perm.refl _
      | false =>
        cases hm : pyInsert lt x ys with
        | none => rw [hm] at h; simp at h
        | some m' =>
          rw [hm] at h
          simp only [Option.map_some'] at h
          cases Option.some.inj h
          exact ((ih hm).cons y).trans (List.Perm.swap x y ys)

theorem pySort_perm : ∀ {l s : List α}, pySort lt l = some s → s.Perm l := by
  intro l
  induction l with
  | nil =>
    intro s h
    cases Option.some.inj h
    exact List.Perm.refl _
  | cons x xs ih =>
    intro s h
    simp only [pySort] at h
    cases hs : pySort lt xs with
    | none => rw [hs] at h; simp at h
    | some s' =>
      rw [hs] at h
      simp only [Option.some_bind] at h
      exact (pyInsert_perm lt h).trans ((ih hs).cons x)

theorem pyInsert_head {x : α} :
    ∀ {l m : List α}, pyInsert lt x l = some m →
      m.head? = some x ∨ m.head? = l.head? := by
  intro l m h
  cases l with
  | nil =>
    cases Option.some.inj h
    exact Or.inl rfl
  | cons y ys =>
    simp only [pyInsert] at h
    cases hlt : lt x y with
    | none => rw [hlt] at h; simp at h
    | some b =>
      rw [hlt] at h
      cases b with
      | true =>
        cases Option.some.inj h
        exact Or.inl rfl
      | false =>
        cases hm : pyInsert lt x ys with
        | none => rw [hm] at h; simp at h
        | some m' =>
          rw [hm] at h
          simp only [Option.map_some'] at h
          cases Option.some.inj h
          exact Or.inr rfl

theorem pyInsert_chain
    (hAsym : ∀ a b, lt a b = some true → lt b a = some false) {x : α} :
    ∀ {l m : List α}, List.Chain' (fun a b => lt b a = some false) l →
      pyInsert lt x l = some m →
      List.Chain' (fun a b => lt b a = some false) m := by
  intro l
  induction l with
  | nil =>
    intro m _ h
    cases Option.some.inj h
    exact List.chain'_singleton x
  | cons y ys ih =>
    intro m hc h
    simp only [pyInsert] at h
    cases hlt : lt x y with
    | none => rw [hlt] at h; simp at h
    | some b =>
      rw [hlt] at h
      cases b with
      | true =>
        cases Option.some.inj h
        exact List.Chain'.cons (hAsym x y hlt) hc
      | false =>
        cases hm : pyInsert lt x ys with
        | none => rw [hm] at h; simp at h
        | some m' =>
          rw [hm] at h
          simp only [Option.map_some'] at h
          cases Option.some.inj h
          rw [List.chain'_cons'] at hc ⊢
          refine ⟨?_, ih hc.2 hm⟩
          intro z hz
          rw [Option.mem_def] at hz
          rcases pyInsert_head lt hm with hh | hh
          · rw [hh] at hz
            cases Option.some.inj hz
            exact hlt
          · rw [hh] at hz
            exact hc.1 z (Option.mem_def.mpr hz)

theorem pySort_chain
    (hAsym : ∀ a b, lt a b = some true → lt b a = some false) :
    ∀ {l s : List α}, pySort lt l = some s →
      List.Chain' (fun a b => lt b a = some false) s := by
  intro l
  induction l with
  | nil =>
    intro s h
    cases Option.some.inj h
    exact List.chain'_nil
  | cons x xs ih =>
    intro s h
    simp only [pySort] at h
    cases hs : pySort lt xs with
    | none => rw [hs] at h; simp at h
    | some s' =>
      rw [hs] at h
      simp only [Option.some_bind] at h
      exact pyInsert_chain lt hAsym (ih hs) h

theorem pySort_sorted_unique
    (hAsym : ∀ a b, lt a b = some true → lt b a = some false)
    (hD1 : ∀ a b, lt a b = some false → lt b a = some true ∨ a = b)
    (hTrans : ∀ a b c, lt a b = some true → lt b c = some true →
      lt a c = some true)
    {l l' s s' : List α} (hp : l.Perm l') (h : pySort lt l = some s)
    (h' : pySort lt l' = some s') : s = s' := by
  haveI hR : IsTrans α (fun a b => lt b a = some false) := by
    constructor
    intro a b c hab hbc
    rcases hD1 b a hab with hab' | hab'
    · rcases hD1 c b hbc with hbc' | hbc'
      · exact hAsym a c (hTrans a b c hab' hbc')
      · rw [hbc']
        exact hab
    · rw [← hab']
      exact hbc
  haveI hA : IsAntisymm α (fun a b => lt b a = some false) := by
    constructor
    intro a b hab hba
    rcases hD1 b a hab with hab' | hab'
    · rw [hab'] at hba
      exact absurd (Option.some.inj hba) (by simp)
    · exact hab'.symm
  have hs := pySort_chain lt hAsym h
  have hs' := pySort_chain lt hAsym h'
  have hps : s.Perm s' := (pySort_perm lt h).trans (hp.trans (pySort_perm lt h').symm)
  exact List.eq_of_perm_of_sorted hps (List.chain'_iff_pairwise.mp hs)
    (List.chain'_iff_pairwise.mp hs')

theorem mapO_perm {β : Type} {f : α → Option β} :
    ∀ {l l' : List α}, l.Perm l' → ∀ {rs : List β}, mapO f l = some rs →
      ∃ rs', mapO f l' = some rs' ∧ rs.Perm rs' := by
  intro l l' hp
  induction hp with
  | nil =>
    intro rs h
    exact ⟨rs, h, List.Perm.refl _⟩
  | @cons x l1 l2 p ih =>
    intro rs h
    simp only [mapO] at h ⊢
    cases hfx : f x with
    | none => rw [hfx] at h; simp at h
    | some y =>
      rw [hfx] at h
      simp only [Option.some_bind] at h
      cases hm : mapO f l1 with
      | none => rw [hm] at h; simp at h
      | some ys =>
        rw [hm] at h
        simp only [Option.map_some'] at h
        cases Option.some.inj h
        obtain ⟨ys', hys', hpys⟩ := ih hm
        refine ⟨y :: ys', ?_, hpys.cons y⟩
        rw [hys']
        simp
  | swap x y t =>
    intro rs h
    simp only [mapO] at h ⊢
    cases hfy : f y with
    | none => rw [hfy] at h; simp at h
    | some b =>
      rw [hfy] at h
      simp only [Option.some_bind] at h
      cases hfx : f x with
      | none => rw [hfx] at h; simp at h
      | some a =>
        rw [hfx] at h
        simp only [Option.some_bind] at h
        cases hm : mapO f t with
        | none => rw [hm] at h; simp at h
        | some ts =>
          rw [hm] at h
          simp only [Option.map_some'] at h
          cases Option.some.inj h
          exact ⟨a :: b :: ts, by simp, List.Perm.swap a b ts⟩
  | trans p1 p2 ih1 ih2 =>
    intro rs h
    obtain ⟨rs1, h1, hp1⟩ := ih1 h
    obtain ⟨rs2, h2, hp2⟩ := ih2 h1
    exact ⟨rs2, h2, hp1.trans hp2⟩

end PySortTheory

theorem canonData_perm {d d' : List SqlRow} (hp : d.Perm d') {s s' : List SqlRow}
    (h : canonData d = some s) (h' : canonData d' = some s') : s = s' := by
  unfold canonData at h h'
  cases hm : mapO (pySort pairLtPy) d with
  | none => rw [hm] at h; simp at h
  | some rs =>
    rw [hm] at h
    simp only [Option.some_bind] at h
    cases hm' : mapO (pySort pairLtPy) d' with
    | none => rw [hm'] at h'; simp at h'
    | some rs' =>
      rw [hm'] at h'
      simp only [Option.some_bind] at h'
      obtain ⟨rs'', hrs'', hperm⟩ := mapO_perm hp hm
      rw [hm'] at hrs''
      cases Option.some.inj hrs''
      exact pySort_sorted_unique rowLtPy
        (fun a b hab => row_asym hab)
        (fun a b hab => row_D1 hab)
        (fun a b c hab hbc => row_trans hab hbc)
        hperm h h'

theorem isPrefixB_iff : ∀ {n h : List Char}, isPrefixB n h = true ↔ n <+: h := by
  intro n
  induction n with
  | nil =>
    intro h
    simp [isPrefixB, List.nil_prefix]
  | cons a as ih =>
    intro h
    cases h with
    | nil => simp [isPrefixB]
    | cons b bs =>
      simp [isPrefixB, List.cons_prefix_cons, ih, Bool.and_eq_true, beq_iff_eq]

theorem containsSubL_iff {n : List Char} :
    ∀ {h : List Char}, containsSubL n h = true ↔ n <:+: h := by
  intro h
  induction h with
  | nil =>
    cases n with
    | nil => simp [containsSubL, isPrefixB]
    | cons a as => simp [containsSubL, isPrefixB]
  | cons c rest ih =>
    simp [containsSubL, Bool.or_eq_true, isPrefixB_iff, ih, List.infix_cons_iff]

theorem pyStrip_isInfix (l : List Char) : pyStrip l <:+: l := by
  unfold pyStrip
  exact ((List.rdropWhile_prefix isWS _).isInfix).trans
    ((List.dropWhile_suffix isWS).isInfix)

theorem pyStrip_eq_nil {l : List Char} (h : pyStrip l = []) :
    ∀ c ∈ l, isWS c = true := by
  unfold pyStrip at h
  rw [List.rdropWhile_eq_nil_iff] at h
  intro c hc
  have hsplit : c ∈ List.takeWhile isWS l ++ List.dropWhile isWS l := by
    rw [List.takeWhile_append_dropWhile]
    exact hc
  rcases List.mem_append.mp hsplit with h1 | h2
  · exact List.mem_takeWhile_imp h1
  · exact h c h2

theorem containsSub_strip_upper {kw l : List Char}
    (h : containsSubL kw (toUpperL (pyStrip l)) = true) :
    containsSubL kw (toUpperL l) = true := by
  rw [containsSubL_iff] at h ⊢
  unfold toUpperL at h ⊢
  exact h.trans ((pyStrip_isInfix l).map Char.toUpper)

theorem strip_not_empty_of_select {q : List Char}
    (h : containsSubL "SELECT * FROM products".data q = true) :
    (pyStrip q).isEmpty = false := by
  rw [containsSubL_iff] at h
  have hS : 'S' ∈ q := h.subset (by decide)
  cases hq : pyStrip q with
  | cons _ _ => rfl
  | nil => exact absurd (pyStrip_eq_nil hq 'S' hS) (by decide)

theorem pyDictRow_eq_self :
    ∀ {l : List (String × SqlValue)} {seen : List String},
      (l.map Prod.fst).Nodup → (∀ p ∈ l, p.1 ∉ seen) → pyDictRow l seen = l := by
  intro l
  induction l with
  | nil => intro seen _ _; rfl
  | cons p rest ih =>
    intro seen hnd hs
    have hnd' : p.1 ∉ rest.map Prod.fst ∧ (rest.map Prod.fst).Nodup := by
      rw [List.map_cons, List.nodup_cons] at hnd
      exact hnd
    simp only [pyDictRow]
    rw [if_neg (hs p (List.mem_cons_self p rest))]
    congr 1
    apply ih hnd'.2
    intro x hx
    rw [List.mem_cons]
    push_neg
    constructor
    · intro he
      exact hnd'.1 (he ▸ List.mem_map_of_mem Prod.fst hx)
    · exact hs x (List.mem_cons_of_mem p hx)

theorem exec_tab_success {engine : Engine} {q : List Char}
    {p : List String × List SqlRow}
    (h : (execute_user_query engine q).tab = some p) :
    (execute_user_query engine q).success = true := by
  unfold execute_user_query at h ⊢
  cases he : engine q with
  | err e =>
    rw [he] at h
    simp at h
  | ok r =>
    rw [he] at h
    by_cases hsel : startsWithSelect q = true
    · simp [if_pos hsel]
    · simp only [if_neg hsel] at h
      simp at h

/-- A sample engine behaviour used by concrete witnesses: every statement
succeeds with one `a` column holding integer 1 and `rowcount` 1. -/
def engine0 : Engine := fun _ => .ok ⟨["a"], [[.vint 1]], 1⟩

/-- C10: a request whose body parses to no JSON object (missing or null body)
is answered `{success: false, error: "No JSON data received"}` for every
engine, so no query is executed; and the answer is not the empty-query error,
which shows the no-JSON check precedes the empty-query check. -/
theorem c10_no_json_first :
    ∀ engine : Engine,
      execute_query engine none = .err "No JSON data received" ∧
      execute_query engine none ≠ .err "Query cannot be empty" := by
  intro engine
  refine ⟨rfl, fun hc => ?_⟩
  rw [show execute_query engine none = .err "No JSON data received" from rfl] at hc
  simp at hc

/-- C4: the executor is total with only tagged outcomes: for every engine
behaviour and statement, the result's `success` is `true` or `false`; a raised
engine error `e` yields exactly the tagged failure `SQL Error: e`; and every
failure arises from a raised engine error with that tagged message. -/
theorem c4_executor_never_raises (engine : Engine) (q : List Char) :
    ((execute_user_query engine q).success = true ∨
      (execute_user_query engine q).success = false) ∧
    (∀ e, engine q = .err e →
      execute_user_query engine q =
        { success := false, tab := none, row_count := none, message := none,
          error := some ("SQL Error: " ++ e) }) ∧
    ((execute_user_query engine q).success = false →
      ∃ e, engine q = .err e ∧
        (execute_user_query engine q).error = some ("SQL Error: " ++ e)) := by
  refine ⟨?_, ?_, ?_⟩
  · cases (execute_user_query engine q).success
    · exact Or.inr rfl
    · exact Or.inl rfl
  · intro e he
    unfold execute_user_query
    rw [he]
  · intro hf
    unfold execute_user_query at hf ⊢
    cases he : engine q with
    | err e => exact ⟨e, rfl, rfl⟩
    | ok r =>
      rw [he] at hf
      by_cases hsel : startsWithSelect q = true <;> simp [hsel] at hf

/-- C4 witness: a concrete engine error is returned as the tagged failure. -/
theorem c4_witness :
    execute_user_query (fun _ => .err "no such table: products") "SELECT x".data =
      { success := false, tab := none, row_count := none, message := none,
        error := some ("SQL Error: " ++ "no such table: products") } :=
  (c4_executor_never_raises (fun _ => .err "no such table: products")
    "SELECT x".data).2.1 "no such table: products" rfl

/-- C9: when exactly one of two successful results carries tabular data, the
comparator reports no shape mismatch: it falls through to comparing the two
`row_count` values and matches exactly when they are equal. -/
theorem c9_mixed_shapes_compare_row_counts (u e : QueryResult)
    (hu : u.success = true) (he : e.success = true)
    (hmix : ((∃ p, u.tab = some p) ∧ e.tab = none) ∨
      (u.tab = none ∧ ∃ p, e.tab = some p)) :
    compare_query_results u e =
      if u.row_count = e.row_count then
        { matched := true, message := "Row counts match" }
      else
        { matched := false,
          message := "Row count mismatch: User affected " ++ rcStr u.row_count
                       ++ ", expected " ++ rcStr e.row_count } := by
  unfold compare_query_results
  rw [hu, he]
  simp only [Bool.true_eq_false, if_false]
  rcases hmix with ⟨⟨⟨cols, data⟩, hp⟩, hn⟩ | ⟨hn, ⟨⟨cols, data⟩, hp⟩⟩ <;>
      rw [hp, hn]

/-- C9 witness: a tabular result against an affected-rows result with equal
counts is a match. -/
theorem c9_witness :
    compare_query_results
        ⟨true, some (["a"], [[("a", .vint 1)]]), some 1, none, none⟩
        ⟨true, none, some 1, some "Query executed successfully. Rows affected: 1", none⟩ =
      { matched := true, message := "Row counts match" } := by
  rw [c9_mixed_shapes_compare_row_counts _ _ rfl rfl
    (Or.inl ⟨⟨(["a"], [[("a", .vint 1)]]), rfl⟩, rfl⟩)]
  rfl

/-- C5: the comparator is reflexive on re-executed read queries: re-running
the same query over the identically reloaded dataset is modelled by the same
engine behaviour, so both runs yield the same result; when that result is
tabular with a defined canonicalization, comparing it with itself is a
perfect match. -/
theorem c5_comparator_reflexive (engine : Engine) (q : List Char)
    (cols : List String) (data s : List SqlRow)
    (htab : (execute_user_query engine q).tab = some (cols, data))
    (hsort : canonData data = some s) :
    compare_query_results (execute_user_query engine q)
        (execute_user_query engine q) =
      { matched := true, message := "Perfect match!" } := by
  have hsucc := exec_tab_success htab
  unfold compare_query_results
  rw [hsucc, htab]
  simp only [Bool.true_eq_false, if_false]
  rw [hsort]
  simp

/-- C5 witness: a concrete query re-executed and compared with itself. -/
theorem c5_witness :
    compare_query_results (execute_user_query engine0 "SELECT a FROM t".data)
        (execute_user_query engine0 "SELECT a FROM t".data) =
      { matched := true, message := "Perfect match!" } :=
  c5_comparator_reflexive engine0 "SELECT a FROM t".data ["a"]
    [[("a", .vint 1)]] [[("a", .vint 1)]] (by decide) (by decide)

/-- C1: for successful tabular results the comparator follows the documented
check order: row-count mismatch (message stating both counts) first, then
column-name set mismatch (non-match; column order irrelevant for the check),
then canonicalization, with a match exactly when the canonical collections are
equal and the fixed message when they are unequal. -/
theorem c1_tabular_comparison_order
    (cols ecols : List String) (d ed : List SqlRow)
    (urc erc : Option Int) (um em uerr eerr : Option String) :
    (d.length ≠ ed.length →
      compare_query_results ⟨true, some (cols, d), urc, um, uerr⟩
          ⟨true, some (ecols, ed), erc, em, eerr⟩ =
        { matched := false,
          message := "Row count mismatch: User has " ++ toString d.length
                       ++ ", expected " ++ toString ed.length }) ∧
    (d.length = ed.length → cols.toFinset ≠ ecols.toFinset →
      (compare_query_results ⟨true, some (cols, d), urc, um, uerr⟩
          ⟨true, some (ecols, ed), erc, em, eerr⟩).matched = false) ∧
    (∀ cols' ecols', cols'.Perm cols → ecols'.Perm ecols →
      (compare_query_results ⟨true, some (cols', d), urc, um, uerr⟩
          ⟨true, some (ecols', ed), erc, em, eerr⟩).matched =
        (compare_query_results ⟨true, some (cols, d), urc, um, uerr⟩
            ⟨true, some (ecols, ed), erc, em, eerr⟩).matched) ∧
    (d.length = ed.length → cols.toFinset = ecols.toFinset →
      ∀ su se, canonData d = some su → canonData ed = some se →
        compare_query_results ⟨true, some (cols, d), urc, um, uerr⟩
            ⟨true, some (ecols, ed), erc, em, eerr⟩ =
          if su = se then { matched := true, message := "Perfect match!" }
          else { matched := false,
                 message := "Data content does not match exactly" }) := by
  refine ⟨?_, ?_, ?_, ?_⟩
  · intro h
    dsimp only [compare_query_results]
    rw [if_pos h]
    rfl
  · intro hlen hcols
    dsimp only [compare_query_results]
    rw [if_neg (not_not_intro hlen), if_pos hcols]
    rfl
  · intro cols' ecols' hp1 hp2
    have e1 : cols'.toFinset = cols.toFinset := List.toFinset_eq_of_perm _ _ hp1
    have e2 : ecols'.toFinset = ecols.toFinset := List.toFinset_eq_of_perm _ _ hp2
    dsimp only [compare_query_results]
    rw [e1, e2]
    by_cases hl : d.length ≠ ed.length
    · rw [if_pos hl, if_pos hl]
    · rw [if_neg hl, if_neg hl]
      by_cases hc : cols.toFinset ≠ ecols.toFinset
      · rw [if_pos hc, if_pos hc]
        rfl
      · rw [if_neg hc, if_neg hc]
  · intro hlen hcols su se hsu hse
    dsimp only [compare_query_results]
    rw [if_neg (not_not_intro hlen), if_neg (not_not_intro hcols), hsu, hse]
    dsimp only
    by_cases heq : su = se
    · rw [if_neg (not_not_intro heq), if_pos heq]
      rfl
    · rw [if_pos heq, if_neg heq]
      rfl

/-- C1 witness: a row-count mismatch reported with both counts, and a
canonical-content mismatch reported with the fixed message. -/
theorem c1_witness :
    compare_query_results
        ⟨true, some (["a"], [[("a", .vint 1)]]), some 1, none, none⟩
        ⟨true, some (["a"], []), some 0, none, none⟩ =
      { matched := false,
        message := "Row count mismatch: User has 1, expected 0" } ∧
    compare_query_results
        ⟨true, some (["a"], [[("a", .vint 1)]]), some 1, none, none⟩
        ⟨true, some (["a"], [[("a", .vint 2)]]), some 1, none, none⟩ =
      { matched := false, message := "Data content does not match exactly" } := by
  constructor
  · rw [(c1_tabular_comparison_order ["a"] ["a"] [[("a", .vint 1)]] []
      (some 1) (some 0) none none none none).1 (by decide)]
    rfl
  · rw [(c1_tabular_comparison_order ["a"] ["a"] [[("a", .vint 1)]]
      [[("a", .vint 2)]] (some 1) (some 1) none none none none).2.2.2
      (by decide) (by decide) [[("a", .vint 1)]] [[("a", .vint 2)]]
      (by decide) (by decide)]
    decide

/-- C6: the comparison verdict is invariant under permuting the rows of
either input result (for row collections whose canonicalization is defined):
permuting the user rows or the expected rows leaves the verdict unchanged. -/
theorem c6_row_permutation_invariance
    (us es : Bool) (cols : List String) (d d' : List SqlRow)
    (etab : Option (List String × List SqlRow)) (urc erc : Option Int)
    (um em uerr eerr : Option String) (su su' : List SqlRow)
    (hperm : d'.Perm d) (hs : canonData d = some su)
    (hs' : canonData d' = some su') :
    compare_query_results ⟨us, some (cols, d'), urc, um, uerr⟩
        ⟨es, etab, erc, em, eerr⟩ =
      compare_query_results ⟨us, some (cols, d), urc, um, uerr⟩
        ⟨es, etab, erc, em, eerr⟩ ∧
    compare_query_results ⟨es, etab, erc, em, eerr⟩
        ⟨us, some (cols, d'), urc, um, uerr⟩ =
      compare_query_results ⟨es, etab, erc, em, eerr⟩
        ⟨us, some (cols, d), urc, um, uerr⟩ := by
  have hsu : su' = su := canonData_perm hperm hs' hs
  have hlen : d'.length = d.length := hperm.length_eq
  constructor
  · cases us with
    | false => rfl
    | true =>
      cases es with
      | false => rfl
      | true =>
        cases etab with
        | none => rfl
        | some p =>
          rcases p with ⟨ec, edata⟩
          dsimp only [compare_query_results]
          rw [hlen, hs, hs', hsu]
  · cases es with
    | false => rfl
    | true =>
      cases us with
      | false => rfl
      | true =>
        cases etab with
        | none => rfl
        | some p =>
          rcases p with ⟨ec, edata⟩
          dsimp only [compare_query_results]
          rw [hlen, hs, hs', hsu]

/-- C6 witness: reversing the user's two rows leaves the verdict unchanged. -/
theorem c6_witness :
    compare_query_results
        ⟨true, some (["a"], [[("a", .vint 2)], [("a", .vint 1)]]), some 2, none, none⟩
        ⟨true, some (["a"], [[("a", .vint 1)], [("a", .vint 2)]]), some 2, none, none⟩ =
      compare_query_results
        ⟨true, some (["a"], [[("a", .vint 1)], [("a", .vint 2)]]), some 2, none, none⟩
        ⟨true, some (["a"], [[("a", .vint 1)], [("a", .vint 2)]]), some 2, none, none⟩ :=
  (c6_row_permutation_invariance true true ["a"]
    [[("a", .vint 1)], [("a", .vint 2)]] [[("a", .vint 2)], [("a", .vint 1)]]
    (some (["a"], [[("a", .vint 1)], [("a", .vint 2)]])) (some 2) (some 2)
    none none none none
    [[("a", .vint 1)], [("a", .vint 2)]] [[("a", .vint 1)], [("a", .vint 2)]]
    (by decide) (by decide) (by decide)).1

theorem strip_not_empty_of_keyword {q : List Char}
    (h : destructive_keywords.any
      (fun kw => containsSubL kw.data (toUpperL (pyStrip q))) = true) :
    (pyStrip q).isEmpty = false := by
  obtain ⟨kw, hkw, hc⟩ := List.any_eq_true.mp h
  rw [containsSubL_iff] at hc
  have hlen := hc.length_le
  cases hq : pyStrip q with
  | cons _ _ => rfl
  | nil =>
    rw [hq] at hlen
    have hz : kw.data.length = 0 := by simpa [toUpperL] using hlen
    fin_cases hkw <;> exact absurd hz (by decide)

/-- C2 counterexample: a query string that contains the substring
"SELECT * FROM products" but is nonetheless rejected by the keyword filter
(it also contains CREATE), so "every query string containing
SELECT * FROM products proceeds to execution" is false on the code. -/
theorem c2_counterexample :
    containsSubL "SELECT * FROM products".data
        "CREATE TABLE backup AS SELECT * FROM products".data = true ∧
    execute_query engine0
        (some ⟨some "CREATE TABLE backup AS SELECT * FROM products", none⟩) =
      .err "For security reasons, only SELECT queries are allowed in this demo" := by
  constructor <;> decide

/-- C2 (amended): a query whose trimmed text contains a destructive keyword
case-insensitively is rejected with the fixed security error for every engine
(no execution); a query containing "SELECT * FROM products" and none of the
seven keywords proceeds to execution; and "DROP TABLE products" is rejected
before execution. -/
theorem c2_keyword_filter (engine : Engine) (q : String) (qid : Option String) :
    (destructive_keywords.any
        (fun kw => containsSubL kw.data (toUpperL (pyStrip q.data))) = true →
      execute_query engine (some ⟨some q, qid⟩) =
        .err "For security reasons, only SELECT queries are allowed in this demo") ∧
    (containsSubL "SELECT * FROM products".data q.data = true →
      (∀ kw ∈ destructive_keywords,
        containsSubL kw.data (toUpperL q.data) = false) →
      execute_query engine (some ⟨some q, qid⟩) =
        .ok (execute_user_query engine (pyStrip q.data))
          (match qid with
            | none => none
            | some i =>
                if i = "" then none
                else some (compare_query_results
                    (execute_user_query engine (pyStrip q.data))
                    (get_expected_result engine i)))) ∧
    execute_query engine (some ⟨some "DROP TABLE products", qid⟩) =
      .err "For security reasons, only SELECT queries are allowed in this demo" := by
  refine ⟨?_, ?_, ?_⟩
  · intro h
    have hne := strip_not_empty_of_keyword h
    simp only [execute_query, Option.getD_some]
    rw [hne, h]
    rfl
  · intro hsel hkw
    have hne := strip_not_empty_of_select hsel
    have hkw2 : destructive_keywords.any
        (fun kw => containsSubL kw.data (toUpperL (pyStrip q.data))) = false := by
      rw [List.any_eq_false]
      intro kw hkwmem
      cases hc : containsSubL kw.data (toUpperL (pyStrip q.data)) with
      | false => simp
      | true =>
        have := containsSub_strip_upper hc
        rw [hkw kw hkwmem] at this
        exact absurd this (by simp)
    simp only [execute_query, Option.getD_some]
    rw [hne, hkw2]
    rfl
  · simp only [execute_query, Option.getD_some]
    rw [show (pyStrip "DROP TABLE products".data).isEmpty = false from rfl]
    rw [show destructive_keywords.any (fun kw =>
      containsSubL kw.data (toUpperL (pyStrip "DROP TABLE products".data))) = true from rfl]
    rfl

/-- C2 witness: the bare query "SELECT * FROM products" proceeds to
execution, and "DELETE FROM products" is rejected with the security error. -/
theorem c2_witness :
    execute_query engine0 (some ⟨some "SELECT * FROM products", none⟩) =
      .ok (execute_user_query engine0 (pyStrip "SELECT * FROM products".data)) none ∧
    execute_query engine0 (some ⟨some "DELETE FROM products", none⟩) =
      .err "For security reasons, only SELECT queries are allowed in this demo" := by
  constructor
  · exact (c2_keyword_filter engine0 "SELECT * FROM products" none).2.1
      (by decide) (by decide)
  · exact (c2_keyword_filter engine0 "DELETE FROM products" none).1 (by decide)

/-- C3 counterexample: a supplied but unrecognized question id ("99") does
not yield a null comparison: the route returns a non-match verdict built from
the failed reference lookup. -/
theorem c3_counterexample :
    execute_query engine0 (some ⟨some "SELECT a FROM t", some "99"⟩) =
      .ok { success := true, tab := some (["a"], [[("a", .vint 1)]]),
            row_count := some 1, message := none, error := none }
        (some { matched := false,
                message := "Expected query failed: Question not found" }) := by
  decide

/-- C3 (amended): for bodies passing the empty and keyword checks, the
response is `{user_result, comparison}` with `user_result` the executed
query's result; `comparison` is null iff `question_id` is absent or empty;
and a supplied, nonempty, unrecognized `question_id` yields (when the user
result succeeded) the non-match verdict naming the reference failure. -/
theorem c3_response_shape (engine : Engine) (body : RequestBody)
    (h1 : (pyStrip (body.query.getD "").data).isEmpty = false)
    (h2 : destructive_keywords.any (fun kw =>
      containsSubL kw.data (toUpperL (pyStrip (body.query.getD "").data))) = false) :
    ∃ comp, execute_query engine (some body) =
        .ok (execute_user_query engine (pyStrip (body.query.getD "").data)) comp ∧
      (comp = none ↔ body.question_id = none ∨ body.question_id = some "") ∧
      (∀ qid, body.question_id = some qid → qid ≠ "" →
        expected_queries.lookup qid = none →
        (execute_user_query engine (pyStrip (body.query.getD "").data)).success = true →
        comp = some { matched := false,
                      message := "Expected query failed: Question not found" }) := by
  refine ⟨match body.question_id with
    | none => none
    | some i =>
        if i = "" then none
        else some (compare_query_results
            (execute_user_query engine (pyStrip (body.query.getD "").data))
            (get_expected_result engine i)), ?_, ?_, ?_⟩
  · simp only [execute_query]
    rw [h1, h2]
    rfl
  · cases hq : body.question_id with
    | none => simp
    | some i =>
      by_cases hi : i = ""
      · simp [hi]
      · simp [hi]
  · intro qid hqid hne hlook hsucc
    rw [hqid]
    dsimp only
    rw [if_neg hne]
    unfold get_expected_result
    rw [hlook]
    unfold compare_query_results
    rw [hsucc]
    rfl

/-- C3 witness: a recognized id ("1") yields a non-null comparison while an
absent id yields a null one, instantiating the amended shape theorem. -/
theorem c3_witness :
    ∃ comp, execute_query engine0 (some ⟨some "SELECT a FROM t", some "99"⟩) =
        .ok (execute_user_query engine0 (pyStrip "SELECT a FROM t".data)) comp ∧
      (comp = none ↔ (some "99" : Option String) = none ∨
        (some "99" : Option String) = some "") ∧
      (∀ qid, (some "99" : Option String) = some qid → qid ≠ "" →
        expected_queries.lookup qid = none →
        (execute_user_query engine0 (pyStrip "SELECT a FROM t".data)).success = true →
        comp = some { matched := false,
                      message := "Expected query failed: Question not found" }) :=
  c3_response_shape engine0 ⟨some "SELECT a FROM t", some "99"⟩ (by decide) (by decide)

/-- An engine behaviour in which a SELECT yields two identically-labelled
columns, as sqlite does for `SELECT 1 AS a, 2 AS a`. -/
def engineDup : Engine := fun _ => .ok ⟨["a", "a"], [[.vint 1, .vint 2]], 1⟩

/-- C7 counterexample: with duplicate selected column labels, `dict(row)`
collapses the row to one key while `columns` keeps both labels, so the
invariant "columns length equals every row's key count" fails on a
successful tabular executor result. -/
theorem c7_counterexample :
    (execute_user_query engineDup "SELECT 1 AS a, 2 AS a".data).success = true ∧
    (execute_user_query engineDup "SELECT 1 AS a, 2 AS a".data).tab =
      some (["a", "a"], [[("a", SqlValue.vint 1)]]) ∧
    (["a", "a"] : List String).length ≠ ([("a", SqlValue.vint 1)] : SqlRow).length := by
  refine ⟨?_, ?_, ?_⟩ <;> decide

/-- C7 (amended): whenever the engine result's described column names are
pairwise distinct (and each fetched raw row has one value per described
column), a successful tabular executor result satisfies the invariant: every
row has exactly `columns.length` keys and `row_count` equals the number of
rows. -/
theorem c7_tabular_invariant (engine : Engine) (q : List Char)
    (r : EngineResult) (he : engine q = .ok r)
    (hnd : r.description.Nodup)
    (hlen : ∀ row ∈ r.raw, row.length = r.description.length) :
    ∀ cols data, (execute_user_query engine q).tab = some (cols, data) →
      (∀ row ∈ data, row.length = cols.length) ∧
      (execute_user_query engine q).row_count = some (Int.ofNat data.length) := by
  intro cols data htab
  unfold execute_user_query at htab ⊢
  rw [he] at htab ⊢
  dsimp only at htab ⊢
  by_cases hsel : startsWithSelect q = true
  · rw [if_pos hsel] at htab ⊢
    simp only [Option.some.injEq, Prod.mk.injEq] at htab
    obtain ⟨hcols, hdata⟩ := htab
    subst hcols
    subst hdata
    constructor
    · intro row hrow
      obtain ⟨vals, hvals, hrow⟩ := List.mem_map.mp hrow
      have hzlen : (r.description.zip vals).length = r.description.length := by
        rw [List.length_zip, hlen vals hvals]
        exact Nat.min_self _
      have hfst : (r.description.zip vals).map Prod.fst = r.description :=
        List.map_fst_zip r.description vals (le_of_eq (hlen vals hvals).symm)
      have hdict : pyDictRow (r.description.zip vals) [] =
          r.description.zip vals := by
        apply pyDictRow_eq_self
        · rw [hfst]
          exact hnd
        · intro p _
          exact List.not_mem_nil p.1
      rw [← hrow, hdict, hzlen]
    · simp
  · rw [if_neg hsel] at htab
    simp at htab

/-- C7 witness: a concrete distinct-column engine result satisfies the
invariant. -/
theorem c7_witness :
    (∀ row ∈ [[("a", SqlValue.vint 1)]], row.length = (["a"] : List String).length) ∧
    (execute_user_query engine0 "SELECT a FROM t".data).row_count =
      some (Int.ofNat ([[("a", SqlValue.vint 1)]] : List SqlRow).length) :=
  c7_tabular_invariant engine0 "SELECT a FROM t".data ⟨["a"], [[.vint 1]], 1⟩
    rfl (by decide) (by decide) ["a"] [[("a", SqlValue.vint 1)]] (by decide)

/-- C8 counterexample: a common-table-expression read query passes the
destructive-keyword filter, does not begin with SELECT, and so reaches the
non-tabular branch: it executes successfully and returns the affected-rows
message result instead of columns and rows.  The branch is therefore
reachable for filter-passing queries. -/
theorem c8_counterexample :
    (destructive_keywords.any (fun kw => containsSubL kw.data
      (toUpperL (pyStrip "WITH t AS (SELECT 1 AS a) SELECT a FROM t".data))) = false) ∧
    execute_user_query engine0 "WITH t AS (SELECT 1 AS a) SELECT a FROM t".data =
      { success := true, tab := none, row_count := some 1,
        message := some "Query executed successfully. Rows affected: 1",
        error := none } ∧
    execute_query engine0
        (some ⟨some "WITH t AS (SELECT 1 AS a) SELECT a FROM t", none⟩) =
      .ok { success := true, tab := none, row_count := some 1,
            message := some "Query executed successfully. Rows affected: 1",
            error := none } none := by
  refine ⟨?_, ?_, ?_⟩ <;> decide

/-- C8 (amended): for queries that pass the destructive-keyword filter, the
non-tabular branch is unreachable only when the trimmed query begins
case-insensitively with SELECT: every such query that executes successfully
returns a tabular result. -/
theorem c8_select_prefix_tabular (engine : Engine) (q : List Char)
    (r : EngineResult)
    (_hfilter : destructive_keywords.any
      (fun kw => containsSubL kw.data (toUpperL (pyStrip q))) = false)
    (hsel : startsWithSelect q = true)
    (he : engine q = .ok r) :
    (execute_user_query engine q).success = true ∧
    (execute_user_query engine q).tab.isSome = true := by
  unfold execute_user_query
  rw [he]
  dsimp only
  rw [if_pos hsel]
  exact ⟨rfl, rfl⟩

/-- C8 witness: a SELECT-prefixed filter-passing query yields a tabular
success. -/
theorem c8_witness :
    (execute_user_query engine0 "SELECT a FROM t".data).success = true ∧
    (execute_user_query engine0 "SELECT a FROM t".data).tab.isSome = true :=
  c8_select_prefix_tabular engine0 "SELECT a FROM t".data ⟨["a"], [[.vint 1]], 1⟩
    (by decide) (by decide) rfl

/-- C10 witness: the no-JSON answer at a concrete engine. -/
theorem c10_witness :
    execute_query engine0 none = .err "No JSON data received" ∧
    execute_query engine0 none ≠ .err "Query cannot be empty" :=
  c10_no_json_first engine0
